import Mathlib

/-!
Shallow embedding of the IEEE-738 conductor thermal model (IEEE738.py).

Python floats are idealised as real numbers.  Operations that can raise a
Python exception (division by a zero float, `math.sqrt` / `math.asin` /
`math.acos` of an out-of-domain argument, an order comparison between
complex values, construction of an invalid `datetime`) are modelled in the
`Except PyErr` monad.  A float power `x ** e` with a negative base and a
non-integral exponent yields a Python `complex`; complex values flow through
arithmetic but cannot be compared, so they are modelled by the opaque tag
`PyVal.cplx` (the only complex values ever used as divisors in this code
have non-zero magnitude, so dividing by a complex value is modelled as
succeeding).
-/

namespace IEEE738

open Real

open scoped Classical

noncomputable section

inductive PyErr where
  | zeroDiv
  | domain
  | invalidDate
deriving DecidableEq

/-- A Python numeric value in this program: a float (idealised as a real
number) or a complex number (tagged, value abstracted away). -/
inductive PyVal where
  | real (x : ℝ)
  | cplx

/-- Python `+` on floats/complexes: any complex operand makes the result
complex. -/
def PyVal.add : PyVal → PyVal → PyVal
  | .real a, .real b => .real (a + b)
  | _, _ => .cplx

instance : Add PyVal := ⟨PyVal.add⟩

/-- Python `*` on floats/complexes: any complex operand makes the result
complex (note `0.0 * 1j` is the complex `0j`, still of complex type). -/
def PyVal.mul : PyVal → PyVal → PyVal
  | .real a, .real b => .real (a * b)
  | _, _ => .cplx

instance : Mul PyVal := ⟨PyVal.mul⟩

/-- e is an integer (as a real). -/
def IsIntR (e : ℝ) : Prop := ∃ n : ℤ, e = (n : ℝ)

/-- Python `pow(x, e)` for float x and float e ≥ 0: real for a non-negative
base or an integral exponent, complex for a negative base with a fractional
exponent.  (For an integral exponent `Real.rpow` agrees with the integer
power even on negative bases.) -/
def powf : PyVal → ℝ → PyVal
  | .real x, e => if 0 ≤ x ∨ IsIntR e then .real (Real.rpow x e) else .cplx
  | .cplx, _ => .cplx

/-- Python float division: raises `ZeroDivisionError` on a zero divisor. -/
def pyDiv (a b : ℝ) : Except PyErr ℝ :=
  if b = 0 then .error .zeroDiv else .ok (a / b)

/-- Python division of a float/complex by a float/complex divisor.  A real
divisor of zero raises; the complex divisors arising in this program are
never zero, so that case is modelled as succeeding with a complex result. -/
def pyDivV : PyVal → PyVal → Except PyErr PyVal
  | a, .real y =>
      if y = 0 then .error .zeroDiv
      else .ok (match a with
                | .real x => .real (x / y)
                | .cplx => .cplx)
  | _, .cplx => .ok .cplx

/-- Python `max(a, b)` wrapped in `try: ... except: 0`: comparing a complex
value raises `TypeError`, which the handler converts to 0. -/
def pyMaxTry : PyVal → PyVal → ℝ
  | .real x, .real y => max x y
  | _, _ => 0

/-- Python `math.sqrt`: raises `ValueError` on a negative argument. -/
def pySqrt (x : ℝ) : Except PyErr ℝ :=
  if x < 0 then .error .domain else .ok (Real.sqrt x)

/-- Python `math.asin`: raises `ValueError` outside [-1, 1]. -/
def pyAsin (x : ℝ) : Except PyErr ℝ :=
  if x < -1 ∨ 1 < x then .error .domain else .ok (Real.arcsin x)

/-- Python `math.acos`: raises `ValueError` outside [-1, 1]. -/
def pyAcos (x : ℝ) : Except PyErr ℝ :=
  if x < -1 ∨ 1 < x then .error .domain else .ok (Real.arccos x)

/-- Python `math.radians`. -/
def radians (x : ℝ) : ℝ := x * Real.pi / 180

/-- Python `math.degrees`. -/
def degrees (x : ℝ) : ℝ := x * 180 / Real.pi

/-! ## Convection heat loss sub-models (IEEE738.py lines 141-298) -/

/-- temperature_boundary_layer: T_film = (T_s + T_a) / 2. -/
def temperature_boundary_layer (T_s T_a : ℝ) : ℝ := (T_s + T_a) / 2

/-- air_density: rho_f; the denominator 1 + 0.00367 T_film can be zero, in
which case Python raises ZeroDivisionError. -/
def air_density (H_e T_film : ℝ) : Except PyErr ℝ :=
  pyDiv (1.293 - 1.525e-4 * H_e + 6.379e-9 * H_e ^ 2) (1 + 0.00367 * T_film)

/-- air_viscosity: mu_f; `pow(T_film + 273, 1.5)` is complex for
T_film < -273, and the denominator T_film + 383.4 can be zero. -/
def air_viscosity (T_film : ℝ) : Except PyErr PyVal :=
  pyDivV (PyVal.real 1.458e-6 * powf (PyVal.real (T_film + 273)) 1.5)
    (PyVal.real (T_film + 383.4))

/-- air_thermal_conductivity_coefficient: k_f (a polynomial, total). -/
def air_thermal_conductivity_coefficient (T_film : ℝ) : ℝ :=
  2.424e-2 + 7.477e-5 * T_film - 4.407e-9 * T_film ^ 2

/-- wind_direction_factor: K_angle (trigonometric, total). -/
def wind_direction_factor (phi : ℝ) : ℝ :=
  1.194 - Real.cos (radians phi) + 0.194 * Real.cos (radians (2 * phi))
    + 0.368 * Real.sin (radians (2 * phi))

/-- reynolds_number: N_Re = D_o rho_f V_w / mu_f; raises on a zero (real)
viscosity. -/
def reynolds_number (D_o rho_f V_w : ℝ) (mu_f : PyVal) : Except PyErr PyVal :=
  pyDivV (PyVal.real (D_o * rho_f * V_w)) mu_f

/-- natural_convection_heat_loss: q_cn; `pow(T_s - T_a, 1.25)` is complex
for T_s < T_a (and `pow(rho_f, 0.5)` for a negative density). -/
def natural_convection_heat_loss (rho_f D_o T_s T_a : ℝ) : PyVal :=
  PyVal.real 3.645 * powf (PyVal.real rho_f) 0.5 * powf (PyVal.real D_o) 0.75
    * powf (PyVal.real (T_s - T_a)) 1.25

/-- forced_convection_heat_loss: q_cf = max of the low- and high-speed
correlations, with the `try/except` returning 0 when the comparison fails
(complex operands). -/
def forced_convection_heat_loss (K_angle : ℝ) (N_Re : PyVal) (k_f T_s T_a : ℝ) : ℝ :=
  let q_cf1 := PyVal.real K_angle
      * (PyVal.real 1.01 + PyVal.real 1.35 * powf N_Re 0.52)
      * PyVal.real k_f * PyVal.real (T_s - T_a)
  let q_cf2 := PyVal.real K_angle * PyVal.real 0.754 * powf N_Re 0.6
      * PyVal.real k_f * PyVal.real (T_s - T_a)
  pyMaxTry q_cf1 q_cf2

/-- convection_heat_loss (IEEE738.py lines 143-174).  The `try/except`
wraps only `max(q_cf, q_cn)`; the divisions in `air_density`,
`air_viscosity` and `reynolds_number` are outside it and their errors
propagate. -/
def convection_heat_loss (T_s T_a H_e D_o phi V_w : ℝ) : Except PyErr ℝ :=
  let T_film := temperature_boundary_layer T_s T_a
  match air_density H_e T_film with
  | .error e => .error e
  | .ok rho_f =>
    match air_viscosity T_film with
    | .error e => .error e
    | .ok mu_f =>
      let k_f := air_thermal_conductivity_coefficient T_film
      let q_cn := natural_convection_heat_loss rho_f D_o T_s T_a
      let K_angle := wind_direction_factor phi
      match reynolds_number D_o rho_f V_w mu_f with
      | .error e => .error e
      | .ok N_Re =>
        let q_cf := forced_convection_heat_loss K_angle N_Re k_f T_s T_a
        .ok (pyMaxTry (PyVal.real q_cf) q_cn)

/-! ## Radiated heat loss, resistance, steady-state rating -/

/-- radiated_heat_loss: q_r (polynomial, total). -/
def radiated_heat_loss (D_o epsilon T_s T_a : ℝ) : ℝ :=
  17.8 * D_o * epsilon * (((T_s + 273) / 100) ^ 4 - ((T_a + 273) / 100) ^ 4)

/-- conductor_electrical_resistance: linear model, total. -/
def conductor_electrical_resistance (R_0 T_0 alpha_T T_avg : ℝ) : ℝ :=
  R_0 * (1 + alpha_T * (T_avg - T_0))

/-- steady_state_thermal_rating: `try: sqrt((q_c+q_r-q_s)/R) except: 0`.
The handler catches both the zero divisor and the negative radicand. -/
def steady_state_thermal_rating (q_c q_r q_s R_T_avg : ℝ) : ℝ :=
  match pyDiv (q_c + q_r - q_s) R_T_avg with
  | .error _ => 0
  | .ok x =>
    match pySqrt x with
    | .error _ => 0
    | .ok I => I

/-! ## Solar heat gain (IEEE738.py lines 318-527) -/

/-- Gregorian leap-year rule (models Python `datetime`). -/
def isLeap (y : ℕ) : Bool := (decide (y % 4 = 0) && decide (y % 100 ≠ 0)) || decide (y % 400 = 0)

/-- Length of a month (models Python `datetime`). -/
def daysInMonth (y m : ℕ) : ℕ :=
  if m = 2 then (if isLeap y then 29 else 28)
  else if m = 4 ∨ m = 6 ∨ m = 9 ∨ m = 11 then 30
  else 31

/-- Days in the months strictly before month m (models Python `datetime`). -/
def daysBeforeMonth (y m : ℕ) : ℕ :=
  (List.range (m - 1)).foldl (fun acc k => acc + daysInMonth y (k + 1)) 0

/-- Date validity as enforced by the `datetime` constructor, which raises
`ValueError` on an out-of-range field. -/
def validDate (y m d : ℕ) : Bool :=
  decide (1 ≤ y) && decide (y ≤ 9999) && decide (1 ≤ m) && decide (m ≤ 12)
    && decide (1 ≤ d) && decide (d ≤ daysInMonth y m)

/-- day_of_year: `(date - datetime(date.year, 1, 1)).days`, i.e. the number
of whole days elapsed since January 1 (January 1 ↦ 0). -/
def day_of_year (y m d : ℕ) : ℕ := daysBeforeMonth y m + (d - 1)

/-- solar_declination: delta = 23.46 sin(radians((284 + N) 360 / 365)). -/
def solar_declination (N : ℕ) : ℝ :=
  23.46 * Real.sin (radians ((284 + (N : ℝ)) * 360 / 365))

/-- hour_angle: omega = 15 (hour - 12). -/
def hour_angle (hour : ℕ) : ℝ := 15 * ((hour : ℝ) - 12)

/-- altitude_sun: H_c, clamped to 0 from below.  `math.asin` raises outside
[-1, 1] (the argument is in fact always in range). -/
def altitude_sun (lat delta omega : ℝ) : Except PyErr ℝ :=
  match pyAsin (Real.cos (radians lat) * Real.cos (radians delta) * Real.cos (radians omega)
      + Real.sin (radians lat) * Real.sin (radians delta)) with
  | .error e => .error e
  | .ok x =>
    let H_c := degrees x
    .ok (if H_c < 0 then 0 else H_c)

/-- elevation_correction_factor: K_solar = A + B H_e + C H_e². -/
def elevation_correction_factor (H_e : ℝ) : ℝ :=
  1 + 1.148e-4 * H_e + -1.108e-8 * H_e ^ 2

/-- total_heat_flux_density: Q_s, one of two sixth-order polynomials in the
sun altitude, selected by the atmosphere class. -/
def total_heat_flux_density (H_c : ℝ) (industrial_atmosphere : Bool) : ℝ :=
  if industrial_atmosphere then
    53.1821 + 14.2110 * H_c + 6.6138e-1 * H_c ^ 2 + -3.1658e-2 * H_c ^ 3
      + 5.4654e-4 * H_c ^ 4 + 4.3446e-6 * H_c ^ 5 + 1.3236e-8 * H_c ^ 6
  else
    -42.2391 + 63.8044 * H_c + -1.9220 * H_c ^ 2 + 3.46921e-2 * H_c ^ 3
      + -3.61118e-4 * H_c ^ 4 + 1.94318e-6 * H_c ^ 5 + -4.07608e-9 * H_c ^ 6

/-- total_heat_flux_intensity: Q_se = K_solar Q_s. -/
def total_heat_flux_intensity (K_solar Q_s : ℝ) : ℝ := K_solar * Q_s

/-- azimuth_variable: ji; the denominator can be zero, raising
ZeroDivisionError. -/
def azimuth_variable (omega lat delta : ℝ) : Except PyErr ℝ :=
  pyDiv (Real.sin (radians omega))
    (Real.sin (radians lat) * Real.cos (radians omega)
      - Real.cos (radians lat) * Real.tan (radians delta))

/-- azimuth_constant: C, a case split on the hour-angle sign and the
azimuth-variable sign. -/
def azimuth_constant (omega ji : ℝ) : ℝ :=
  if -180 ≤ omega ∧ omega < 0 ∧ 0 ≤ ji then 0
  else if 0 ≤ omega ∧ omega < 180 ∧ ji < 0 then 360
  else 180

/-- azimuth: Z_c = C + degrees(atan ji). -/
def azimuth (C ji : ℝ) : ℝ := C + degrees (Real.arctan ji)

/-- solar_rays_incidence_angle: theta = degrees(acos(cos(H_c) cos(Z_c - Z_l)))
(the acos argument is a product of cosines, always in range). -/
def solar_rays_incidence_angle (H_c Z_c Z_l : ℝ) : Except PyErr ℝ :=
  match pyAcos (Real.cos (radians H_c) * Real.cos (radians (Z_c - Z_l))) with
  | .error e => .error e
  | .ok x => .ok (degrees x)

/-- solar_heat_gain (IEEE738.py lines 322-359): composes the solar-geometry
sub-steps; the final gain is clamped to ≥ 0.  The `datetime` constructor
raises on an invalid date. -/
def solar_heat_gain (year month day hour : ℕ) (H_e lat : ℝ)
    (industrial_atmosphere : Bool) (Z_l D_o alpha : ℝ) : Except PyErr ℝ :=
  if validDate year month day then
    let K_solar := elevation_correction_factor H_e
    let N := day_of_year year month day
    let delta := solar_declination N
    let omega := hour_angle hour
    match altitude_sun lat delta omega with
    | .error e => .error e
    | .ok H_c =>
      let Q_s := total_heat_flux_density H_c industrial_atmosphere
      let Q_se := total_heat_flux_intensity K_solar Q_s
      match azimuth_variable omega lat delta with
      | .error e => .error e
      | .ok ji =>
        let C := azimuth_constant omega ji
        let Z_c := azimuth C ji
        match solar_rays_incidence_angle H_c Z_c Z_l with
        | .error e => .error e
        | .ok theta =>
          let A := D_o
          let q_s := alpha * Q_se * Real.sin (radians theta) * A
          .ok (if q_s < 0 then 0 else q_s)
  else .error .invalidDate

/-! ## Steady-state conductor temperature: the modified secant solver
(IEEE738.py lines 66-139) -/

/-- One pass of the solver's `while True` body (IEEE738.py lines 112-130):
perturbed trial T·(1 + 0.1), resistance / convection / radiation at both
trial points, residuals against I_ss, and the guarded secant update
(`delta = 0.1` is the fixed fractional perturbation of line 106). -/
def ssPass (I_ss V_w phi epsilon T_a D_o R_0 T_0 alpha_T H_e q_s T : ℝ) :
    Except PyErr ℝ :=
  let T2 := T * (1 + 0.1)
  let R1 := conductor_electrical_resistance R_0 T_0 alpha_T T
  let R2 := conductor_electrical_resistance R_0 T_0 alpha_T T2
  match convection_heat_loss T T_a H_e D_o phi V_w with
  | .error e => .error e
  | .ok q_c1 =>
    match convection_heat_loss T2 T_a H_e D_o phi V_w with
    | .error e => .error e
    | .ok q_c2 =>
      let q_r1 := radiated_heat_loss D_o epsilon T T_a
      let q_r2 := radiated_heat_loss D_o epsilon T2 T_a
      let f1 := steady_state_thermal_rating q_c1 q_r1 q_s R1 - I_ss
      let f2 := steady_state_thermal_rating q_c2 q_r2 q_s R2 - I_ss
      if f2 - f1 ≠ 0 then .ok (T - 0.1 * T * f1 / (f2 - f1)) else .ok T

/-- The relative-error update of IEEE738.py lines 132-133: recomputed only
when the new trial temperature is non-zero, otherwise the previous error
value is retained. -/
def ssNewErr (Tnew Told ea : ℝ) : ℝ :=
  if Tnew ≠ 0 then |(Tnew - Told) / Tnew| * 100 else ea

/-- The solver's `while True` loop (IEEE738.py lines 111-138): i is
incremented at the top of the body; the loop exits when the relative error
is within tolerance or the iteration count reaches imax, returning the
current trial temperature together with the iteration count (the count is
printed by the source).  The exit test `i >= imax` bounds the recursion. -/
def ssLoopAux (I_ss V_w phi epsilon T_a D_o R_0 T_0 alpha_T H_e q_s es : ℝ)
    (imax : ℕ) (T ea : ℝ) (i : ℕ) : Except PyErr (ℝ × ℕ) :=
  match ssPass I_ss V_w phi epsilon T_a D_o R_0 T_0 alpha_T H_e q_s T with
  | .error e => .error e
  | .ok T2 =>
    let ea2 := ssNewErr T2 T ea
    if h : ea2 ≤ es ∨ imax ≤ i + 1 then .ok (T2, i + 1)
    else ssLoopAux I_ss V_w phi epsilon T_a D_o R_0 T_0 alpha_T H_e q_s es imax T2 ea2 (i + 1)
termination_by imax - i
decreasing_by push_neg at h; omega

/-- steady_state_conductor_temperature (IEEE738.py lines 66-139): solar gain
computed once, trial temperature seeded at T_a + 5, initial relative error
100, iteration counter 0; returns the temperature at loop exit. -/
def steady_state_conductor_temperature (I_ss V_w phi epsilon alpha T_a D_o R_0 T_0 alpha_T
    Z_l lat : ℝ) (industrial_atmosphere : Bool) (year month day hour : ℕ)
    (H_e es : ℝ) (imax : ℕ) : Except PyErr ℝ :=
  match solar_heat_gain year month day hour H_e lat industrial_atmosphere Z_l D_o alpha with
  | .error e => .error e
  | .ok q_s =>
    match ssLoopAux I_ss V_w phi epsilon T_a D_o R_0 T_0 alpha_T H_e q_s es imax
        (T_a + 5) 100 0 with
    | .error e => .error e
    | .ok r => .ok r.1

/-- The state (trial temperature, relative error) after n passes of the
solver body, starting from a given state: the reference iteration used to
characterise the loop. -/
def ssIter (I_ss V_w phi epsilon T_a D_o R_0 T_0 alpha_T H_e q_s : ℝ) :
    ℕ → ℝ × ℝ → Except PyErr (ℝ × ℝ)
  | 0, s => .ok s
  | n + 1, s =>
    match ssPass I_ss V_w phi epsilon T_a D_o R_0 T_0 alpha_T H_e q_s s.1 with
    | .error e => .error e
    | .ok T2 => ssIter I_ss V_w phi epsilon T_a D_o R_0 T_0 alpha_T H_e q_s n
        (T2, ssNewErr T2 s.1 s.2)

/-! ## Transient response (IEEE738.py lines 548-713) -/

/-- delta_T: the forward-Euler temperature increment; raises on a zero heat
capacity. -/
def delta_T (R_T_avg I q_s q_c q_r mC_p dt : ℝ) : Except PyErr ℝ :=
  match pyDiv (R_T_avg * I ^ 2 + q_s - q_c - q_r) mC_p with
  | .error e => .error e
  | .ok x => .ok (x * dt)

/-- delta_t: the time increment for a fixed temperature step; raises when
the net heat rate is zero. -/
def delta_t (R_T_avg I q_s q_c q_r mC_p dT : ℝ) : Except PyErr ℝ :=
  match pyDiv mC_p (R_T_avg * I ^ 2 + q_s - q_c - q_r) with
  | .error e => .error e
  | .ok x => .ok (x * dT)

/-- `numpy.trunc` (truncation toward zero) composed with `int(...)`. -/
def pyTrunc (x : ℝ) : ℤ := if 0 ≤ x then ⌊x⌋ else -⌊-x⌋

/-- The body of the trajectory loop (IEEE738.py lines 594-602): values that
depend on the current temperature, then the Euler increment. -/
def transientBody (I_f V_w phi epsilon T_a D_o R_0 T_0 alpha_T H_e mC_p q_s dt T : ℝ) :
    Except PyErr ℝ :=
  let R_T_i := conductor_electrical_resistance R_0 T_0 alpha_T T
  match convection_heat_loss T T_a H_e D_o phi V_w with
  | .error e => .error e
  | .ok q_c_i =>
    let q_r_i := radiated_heat_loss D_o epsilon T T_a
    delta_T R_T_i I_f q_s q_c_i q_r_i mC_p dt

/-- The trajectory loop: n Euler steps appending each new temperature to the
accumulated list (the source appends to `T` and reads `T[-1]`). -/
def eulerGo (I_f V_w phi epsilon T_a D_o R_0 T_0 alpha_T H_e mC_p q_s dt : ℝ) :
    ℕ → ℝ → List ℝ → Except PyErr (List ℝ)
  | 0, _, acc => .ok acc
  | n + 1, T, acc =>
    match transientBody I_f V_w phi epsilon T_a D_o R_0 T_0 alpha_T H_e mC_p q_s dt T with
    | .error e => .error e
    | .ok dT2 => eulerGo I_f V_w phi epsilon T_a D_o R_0 T_0 alpha_T H_e mC_p q_s dt n
        (T + dT2) (acc ++ [T + dT2])

/-- The list of new temperatures produced by n Euler steps from T: the
reference recurrence used to characterise `eulerGo`. -/
def eulerChain (I_f V_w phi epsilon T_a D_o R_0 T_0 alpha_T H_e mC_p q_s dt : ℝ) :
    ℕ → ℝ → Except PyErr (List ℝ)
  | 0, _ => .ok []
  | n + 1, T =>
    match transientBody I_f V_w phi epsilon T_a D_o R_0 T_0 alpha_T H_e mC_p q_s dt T with
    | .error e => .error e
    | .ok dT2 =>
      match eulerChain I_f V_w phi epsilon T_a D_o R_0 T_0 alpha_T H_e mC_p q_s dt n (T + dT2) with
      | .error e => .error e
      | .ok rest => .ok ((T + dT2) :: rest)

/-- transient_conductor_temperature (IEEE738.py lines 552-603): pre-transient
steady state at I_i, solar gain once, then `int(trunc(time/dt))` Euler steps
appended after the initial sample. -/
def transient_conductor_temperature (I_i I_f dt time mC_p V_w phi epsilon alpha T_a D_o
    R_0 T_0 alpha_T Z_l lat : ℝ) (industrial_atmosphere : Bool)
    (year month day hour : ℕ) (H_e es : ℝ) (imax : ℕ) : Except PyErr (List ℝ) :=
  match steady_state_conductor_temperature I_i V_w phi epsilon alpha T_a D_o R_0 T_0 alpha_T
      Z_l lat industrial_atmosphere year month day hour H_e es imax with
  | .error e => .error e
  | .ok T_i =>
    match solar_heat_gain year month day hour H_e lat industrial_atmosphere Z_l D_o alpha with
    | .error e => .error e
    | .ok q_s =>
      match pyDiv time dt with
      | .error e => .error e
      | .ok r =>
        let n := (pyTrunc r).toNat
        eulerGo I_f V_w phi epsilon T_a D_o R_0 T_0 alpha_T H_e mC_p q_s dt n T_i [T_i]

/-- The body of the settling-time loop (IEEE738.py lines 646-651):
temperature-dependent values, then the time increment for the fixed
temperature step dT. -/
def settlingBody (I_f V_w phi epsilon T_a D_o R_0 T_0 alpha_T H_e mC_p q_s dT T : ℝ) :
    Except PyErr ℝ :=
  let R_T_i := conductor_electrical_resistance R_0 T_0 alpha_T T
  match convection_heat_loss T T_a H_e D_o phi V_w with
  | .error e => .error e
  | .ok q_c_i =>
    let q_r_i := radiated_heat_loss D_o epsilon T T_a
    delta_t R_T_i I_f q_s q_c_i q_r_i mC_p dT

/-- The settling-time `while T <= T_f` loop (IEEE738.py lines 643-655),
indexed by fuel because the source loop has no iteration bound: `none`
means the loop is still running after `fuel` iterations (the source would
keep looping), `some (ok t)` that it returned the accumulated time t, and
`some (error e)` that an exception propagated out of the body. -/
def settlingLoopFuel (I_f V_w phi epsilon T_a D_o R_0 T_0 alpha_T H_e mC_p q_s dT T_f : ℝ) :
    ℕ → ℝ → ℝ → Option (Except PyErr ℝ)
  | fuel, T, Time =>
    if T ≤ T_f then
      match fuel with
      | 0 => none
      | fuel2 + 1 =>
        match settlingBody I_f V_w phi epsilon T_a D_o R_0 T_0 alpha_T H_e mC_p q_s dT T with
        | .error e => some (.error e)
        | .ok dtv =>
          settlingLoopFuel I_f V_w phi epsilon T_a D_o R_0 T_0 alpha_T H_e mC_p q_s dT T_f
            fuel2 (T + dT) (Time + dtv)
    else some (.ok Time)

/-- transient_settling_time (IEEE738.py lines 607-655), with the unbounded
loop fuel-indexed as in `settlingLoopFuel`. -/
def transient_settling_time (fuel : ℕ) (I_i I_f dT mC_p V_w phi epsilon alpha T_a D_o
    R_0 T_0 alpha_T Z_l lat : ℝ) (industrial_atmosphere : Bool)
    (year month day hour : ℕ) (H_e es : ℝ) (imax : ℕ) : Option (Except PyErr ℝ) :=
  match steady_state_conductor_temperature I_i V_w phi epsilon alpha T_a D_o R_0 T_0 alpha_T
      Z_l lat industrial_atmosphere year month day hour H_e es imax with
  | .error e => some (.error e)
  | .ok T_i =>
    match steady_state_conductor_temperature I_f V_w phi epsilon alpha T_a D_o R_0 T_0 alpha_T
        Z_l lat industrial_atmosphere year month day hour H_e es imax with
    | .error e => some (.error e)
    | .ok T_f =>
      match solar_heat_gain year month day hour H_e lat industrial_atmosphere Z_l D_o alpha with
      | .error e => some (.error e)
      | .ok q_s =>
        settlingLoopFuel I_f V_w phi epsilon T_a D_o R_0 T_0 alpha_T H_e mC_p q_s dT T_f
          fuel T_i 0

/-! ## Conductor heat capacity (IEEE738.py lines 698-713) -/

/-- conductor_heat_capacity: sum of mass × specific-heat over the zipped
material lists, accumulated as in the source loop. -/
def conductor_heat_capacity (m_i C_pi : List ℝ) : ℝ :=
  (List.zip m_i C_pi).foldl (fun acc mC => acc + mC.1 * mC.2) 0

/-! ## Reference definitions used to state the claims -/

/-- The residual f(T) described by the specification: the steady-state
rating evaluated at the trial temperature (with the cached solar gain)
minus the target current.  Built from the same embedded sub-models; the
solver body is proved equal to the secant combination of this residual at
T and T·(1 + 0.1). -/
def ssResidualFn (I_ss V_w phi epsilon T_a D_o R_0 T_0 alpha_T H_e q_s T : ℝ) :
    Except PyErr ℝ :=
  match convection_heat_loss T T_a H_e D_o phi V_w with
  | .error e => .error e
  | .ok q_c =>
    .ok (steady_state_thermal_rating q_c (radiated_heat_loss D_o epsilon T T_a) q_s
      (conductor_electrical_resistance R_0 T_0 alpha_T T) - I_ss)

/-- The conventional 1-based day-of-year numbering referenced by the
source's docstring (January 21 ↦ 21, solstices at 172 and 355 in a common
year). -/
def conventional_day_of_year (y m d : ℕ) : ℕ := daysBeforeMonth y m + d

end

/-! ## Basic evaluation lemmas -/

theorem pyDiv_of_ne (a b : ℝ) (h : b ≠ 0) : pyDiv a b = .ok (a / b) := by
  simp [pyDiv, h]

theorem pyDiv_den_zero (a : ℝ) : pyDiv a 0 = .error .zeroDiv := by
  simp [pyDiv]

theorem pyvl_mul_real (a b : ℝ) : PyVal.real a * PyVal.real b = PyVal.real (a * b) := rfl

theorem pyvl_mul_cplx (a : PyVal) : a * PyVal.cplx = PyVal.cplx := by
  cases a <;> rfl

theorem pyvl_add_real (a b : ℝ) : PyVal.real a + PyVal.real b = PyVal.real (a + b) := rfl

theorem powf_real_of_nonneg (x e : ℝ) (h : 0 ≤ x) :
    powf (PyVal.real x) e = PyVal.real (Real.rpow x e) := by
  simp [powf, h]

theorem not_isIntR_div (a b : ℤ) (hb : 0 < b) (hnd : ¬ b ∣ a) :
    ¬ IsIntR ((a : ℝ) / (b : ℝ)) := by
  rintro ⟨n, hn⟩
  apply hnd
  refine ⟨n, ?_⟩
  have hb0 : (b : ℝ) ≠ 0 := by exact_mod_cast hb.ne'
  have : (a : ℝ) = (b : ℝ) * (n : ℝ) := by
    field_simp at hn
    linarith [hn]
  exact_mod_cast this

theorem not_isIntR_five_fourths : ¬ IsIntR (1.25 : ℝ) := by
  have h : (1.25 : ℝ) = (5 : ℤ) / (4 : ℤ) := by norm_num
  rw [h]
  exact not_isIntR_div 5 4 (by norm_num) (by decide)

theorem not_isIntR_three_halves : ¬ IsIntR (1.5 : ℝ) := by
  have h : (1.5 : ℝ) = (3 : ℤ) / (2 : ℤ) := by norm_num
  rw [h]
  exact not_isIntR_div 3 2 (by norm_num) (by decide)

theorem powf_real_neg (x e : ℝ) (hx : ¬ 0 ≤ x) (he : ¬ IsIntR e) :
    powf (PyVal.real x) e = PyVal.cplx := by
  simp [powf, hx, he]

theorem air_density_eval (H_e t : ℝ) (h : 1 + 0.00367 * t ≠ 0) :
    air_density H_e t =
      .ok ((1.293 - 1.525e-4 * H_e + 6.379e-9 * H_e ^ 2) / (1 + 0.00367 * t)) := by
  rw [air_density, pyDiv_of_ne _ _ h]

theorem air_density_err (H_e t : ℝ) (h : 1 + 0.00367 * t = 0) :
    air_density H_e t = .error .zeroDiv := by
  unfold air_density pyDiv
  rw [if_pos h]

theorem air_viscosity_eval (t : ℝ) (h0 : 0 ≤ t + 273) (h1 : t + 383.4 ≠ 0) :
    air_viscosity t = .ok (.real (1.458e-6 * Real.rpow (t + 273) 1.5 / (t + 383.4))) := by
  rw [air_viscosity, powf_real_of_nonneg _ _ h0, pyvl_mul_real]
  simp [pyDivV, h1]

theorem air_viscosity_cplx (t : ℝ) (h0 : ¬ 0 ≤ t + 273) (h1 : t + 383.4 ≠ 0) :
    air_viscosity t = .ok .cplx := by
  rw [air_viscosity, powf_real_neg _ _ h0 not_isIntR_three_halves, pyvl_mul_cplx]
  simp [pyDivV, h1]

theorem air_viscosity_pos (t : ℝ) (h0 : -273 < t) (h1 : 0 < t + 383.4) :
    ∃ m, air_viscosity t = .ok (.real m) ∧ 0 < m := by
  refine ⟨_, air_viscosity_eval t (by linarith) (ne_of_gt h1), ?_⟩
  have hr : 0 < Real.rpow (t + 273) 1.5 := Real.rpow_pos_of_pos (by linarith) _
  exact div_pos (mul_pos (by norm_num) hr) h1

theorem reynolds_eval (D_o rho V_w m : ℝ) (hm : m ≠ 0) :
    reynolds_number D_o rho V_w (.real m) = .ok (.real (D_o * rho * V_w / m)) := by
  simp [reynolds_number, pyDivV, hm]

theorem reynolds_zero_mu (D_o rho V_w : ℝ) :
    reynolds_number D_o rho V_w (.real 0) = .error .zeroDiv := by
  simp [reynolds_number, pyDivV]

theorem reynolds_cplx (D_o rho V_w : ℝ) :
    reynolds_number D_o rho V_w .cplx = .ok .cplx := by
  simp [reynolds_number, pyDivV]

/-! ## C3: steady_state_thermal_rating fails closed -/

/-- C3: steady_state_thermal_rating never raises: for a zero resistance or a
negative radicand it returns 0, and otherwise it returns the square root of
(q_c + q_r - q_s) / R_T_avg.  (The function is total by construction; this
characterises the handled cases.) -/
theorem thermal_rating_fails_closed (q_c q_r q_s R_T_avg : ℝ) :
    steady_state_thermal_rating q_c q_r q_s R_T_avg =
      if R_T_avg = 0 ∨ (q_c + q_r - q_s) / R_T_avg < 0 then 0
      else Real.sqrt ((q_c + q_r - q_s) / R_T_avg) := by
  unfold steady_state_thermal_rating pyDiv pySqrt
  by_cases hR : R_T_avg = 0
  · simp [hR]
  · by_cases hx : (q_c + q_r - q_s) / R_T_avg < 0
    · simp [hR, hx]
    · simp [hR, hx]

/-! ## C8: conductor_heat_capacity is a sum of elementwise products -/

theorem heat_capacity_foldl (l : List (ℝ × ℝ)) (a : ℝ) :
    l.foldl (fun acc mC => acc + mC.1 * mC.2) a = a + (l.map fun p => p.1 * p.2).sum := by
  induction l generalizing a with
  | nil => simp
  | cons x xs ih => simp [ih]; ring

theorem zip_fst_snd (ps : List (ℝ × ℝ)) :
    List.zip (ps.map Prod.fst) (ps.map Prod.snd) = ps := by
  induction ps with
  | nil => rfl
  | cons p ps ih => simp [List.zip, ih]

/-- C8: for equal-length mass and specific-heat lists, conductor_heat_capacity
is the sum of the elementwise products (in particular the two-element case is
m1 c1 + m2 c2), and it is invariant under any simultaneous reordering of the
paired lists. -/
theorem heat_capacity_sum_and_perm (ms cs : List ℝ) (h : ms.length = cs.length) :
    conductor_heat_capacity ms cs = ((ms.zip cs).map fun p => p.1 * p.2).sum
    ∧ (∀ m1 m2 c1 c2 : ℝ, conductor_heat_capacity [m1, m2] [c1, c2] = m1 * c1 + m2 * c2)
    ∧ ∀ ps : List (ℝ × ℝ), (ms.zip cs).Perm ps →
        conductor_heat_capacity (ps.map Prod.fst) (ps.map Prod.snd) =
          conductor_heat_capacity ms cs := by
  refine ⟨?_, ?_, ?_⟩
  · simpa using heat_capacity_foldl (ms.zip cs) 0
  · intro m1 m2 c1 c2
    simp [conductor_heat_capacity, List.zip]
  · intro ps hperm
    have h1 := heat_capacity_foldl (ms.zip cs) 0
    have h2 := heat_capacity_foldl (List.zip (ps.map Prod.fst) (ps.map Prod.snd)) 0
    rw [conductor_heat_capacity, conductor_heat_capacity, h1, h2, zip_fst_snd]
    have := (hperm.map fun p : ℝ × ℝ => p.1 * p.2).sum_eq
    rw [this]

/-- C8 witness at the concrete lists [1, 2] and [3, 4]. -/
theorem heat_capacity_sum_and_perm_witness :
    ([1, 2] : List ℝ).length = ([3, 4] : List ℝ).length ∧
    (conductor_heat_capacity [1, 2] [3, 4] = ((([1, 2] : List ℝ).zip [3, 4]).map fun p => p.1 * p.2).sum
    ∧ (∀ m1 m2 c1 c2 : ℝ, conductor_heat_capacity [m1, m2] [c1, c2] = m1 * c1 + m2 * c2)
    ∧ ∀ ps : List (ℝ × ℝ), ((([1, 2] : List ℝ).zip [3, 4]).Perm ps) →
        conductor_heat_capacity (ps.map Prod.fst) (ps.map Prod.snd) =
          conductor_heat_capacity [1, 2] [3, 4]) :=
  ⟨rfl, heat_capacity_sum_and_perm [1, 2] [3, 4] rfl⟩

/-! ## C10: day_of_year is 0-based -/

/-- C10: for every valid calendar date, day_of_year returns the number of
whole days elapsed since January 1 (January 1 ↦ 0, January 21 ↦ 20), so the
day number fed into solar_declination is one less than the conventional
1-based numbering (which puts January 21 at 21 and the solstices at 172 and
355 in a common year). -/
theorem day_of_year_zero_based (y m d : ℕ) (h : validDate y m d = true) :
    day_of_year y 1 1 = 0 ∧ day_of_year y 1 21 = 20 ∧
    day_of_year y m d + 1 = conventional_day_of_year y m d ∧
    conventional_day_of_year 2021 1 21 = 21 ∧
    conventional_day_of_year 2021 6 21 = 172 ∧
    conventional_day_of_year 2021 12 21 = 355 := by
  refine ⟨by simp [day_of_year, daysBeforeMonth], by simp [day_of_year, daysBeforeMonth], ?_,
    by decide, by decide, by decide⟩
  simp only [validDate, Bool.and_eq_true, decide_eq_true_eq] at h
  have hd : 1 ≤ d := h.1.2
  unfold day_of_year conventional_day_of_year
  omega

/-- C10 witness at the valid date 2021-03-23. -/
theorem day_of_year_zero_based_witness :
    validDate 2021 3 23 = true ∧
    (day_of_year 2021 1 1 = 0 ∧ day_of_year 2021 1 21 = 20 ∧
     day_of_year 2021 3 23 + 1 = conventional_day_of_year 2021 3 23 ∧
     conventional_day_of_year 2021 1 21 = 21 ∧
     conventional_day_of_year 2021 6 21 = 172 ∧
     conventional_day_of_year 2021 12 21 = 355) :=
  ⟨by decide, day_of_year_zero_based 2021 3 23 (by decide)⟩

/-! ## C1: the structure of one secant iteration -/

/-- C1: the secant iteration starts from the trial temperature T_a + 5, and
each pass of the loop body evaluates the residual f(T) = rating(...) - I_ss
at the trial T and at the perturbed trial T·(1 + 0.1) (resistance,
convective loss and radiative loss recomputed at both points), then updates
T to T - (0.1·T·f(T)) / (f(T') - f(T)), skipping the update and retaining T
when f(T') - f(T) is exactly 0. -/
theorem secant_iteration_structure (I_ss V_w phi epsilon alpha T_a D_o R_0 T_0 alpha_T
    Z_l lat : ℝ) (industrial_atmosphere : Bool) (year month day hour : ℕ)
    (H_e es : ℝ) (imax : ℕ) :
    (∀ q_s T : ℝ,
      ssPass I_ss V_w phi epsilon T_a D_o R_0 T_0 alpha_T H_e q_s T =
        match ssResidualFn I_ss V_w phi epsilon T_a D_o R_0 T_0 alpha_T H_e q_s T,
            ssResidualFn I_ss V_w phi epsilon T_a D_o R_0 T_0 alpha_T H_e q_s (T * (1 + 0.1)) with
        | .ok fT, .ok fT2 =>
            .ok (if fT2 - fT = 0 then T else T - 0.1 * T * fT / (fT2 - fT))
        | .error e, _ => .error e
        | .ok _, .error e => .error e)
    ∧ steady_state_conductor_temperature I_ss V_w phi epsilon alpha T_a D_o R_0 T_0 alpha_T
        Z_l lat industrial_atmosphere year month day hour H_e es imax =
        match solar_heat_gain year month day hour H_e lat industrial_atmosphere Z_l D_o alpha with
        | .error e => .error e
        | .ok q_s =>
          match ssLoopAux I_ss V_w phi epsilon T_a D_o R_0 T_0 alpha_T H_e q_s es imax
              (T_a + 5) 100 0 with
          | .error e => .error e
          | .ok r => .ok r.1 := by
  constructor
  · intro q_s T
    unfold ssPass ssResidualFn
    simp only []
    cases h1 : convection_heat_loss T T_a H_e D_o phi V_w with
    | error e => simp
    | ok q_c1 =>
      cases h2 : convection_heat_loss (T * (1 + 0.1)) T_a H_e D_o phi V_w with
      | error e => simp [h2]
      | ok q_c2 =>
        simp only [h2]
        set f1 := steady_state_thermal_rating q_c1 (radiated_heat_loss D_o epsilon T T_a) q_s
          (conductor_electrical_resistance R_0 T_0 alpha_T T) - I_ss with hf1
        set f2 := steady_state_thermal_rating q_c2
          (radiated_heat_loss D_o epsilon (T * (1 + 0.1)) T_a) q_s
          (conductor_electrical_resistance R_0 T_0 alpha_T (T * (1 + 0.1))) - I_ss with hf2
        by_cases hz : f2 - f1 = 0
        · simp [hz]
        · simp [hz]
  · rfl

/-! ## C4: convection_heat_loss and exceptions -/

/-- C4 counterexample: at T_s = T_a = -273 the film temperature is -273, the
computed air viscosity is exactly (real) zero, and convection_heat_loss
raises ZeroDivisionError from the unguarded Reynolds-number division instead
of returning 0 — the `try/except` covers only the final `max`. -/
theorem convection_zero_viscosity_raises_cx :
    air_viscosity (temperature_boundary_layer (-273) (-273)) = .ok (.real 0) ∧
    convection_heat_loss (-273) (-273) 0 1 0 1 = .error .zeroDiv ∧
    ∀ q : ℝ, convection_heat_loss (-273) (-273) 0 1 0 1 ≠ .ok q := by
  have htb : temperature_boundary_layer (-273) (-273) = (-273 : ℝ) := by
    unfold temperature_boundary_layer; norm_num
  have hvisc : air_viscosity (temperature_boundary_layer (-273) (-273)) = .ok (.real 0) := by
    rw [htb, air_viscosity_eval (-273) (by norm_num) (by norm_num)]
    norm_num [Real.zero_rpow]
  have hconv : convection_heat_loss (-273) (-273) 0 1 0 1 = .error .zeroDiv := by
    unfold convection_heat_loss
    rw [htb] at hvisc
    simp only [htb, air_density_eval 0 (-273) (by norm_num), hvisc, reynolds_zero_mu]
  refine ⟨hvisc, hconv, ?_⟩
  intro q h
  rw [hconv] at h
  exact Except.noConfusion h

/-- C4 amended: convection_heat_loss raises no exception provided its three
division sites are non-degenerate — air-density denominator non-zero,
viscosity denominator non-zero, and the computed viscosity not the real
value 0; a zero viscosity instead makes the Reynolds division raise
ZeroDivisionError, which propagates (it is not converted to 0). -/
theorem convection_total_unless_division (T_s T_a H_e D_o phi V_w : ℝ)
    (h1 : 1 + 0.00367 * temperature_boundary_layer T_s T_a ≠ 0)
    (h2 : temperature_boundary_layer T_s T_a + 383.4 ≠ 0)
    (h3 : air_viscosity (temperature_boundary_layer T_s T_a) ≠ .ok (.real 0)) :
    ∃ q, convection_heat_loss T_s T_a H_e D_o phi V_w = .ok q := by
  unfold convection_heat_loss
  by_cases hc : 0 ≤ temperature_boundary_layer T_s T_a + 273
  · have hv := air_viscosity_eval _ hc h2
    have hmu : 1.458e-6 * Real.rpow (temperature_boundary_layer T_s T_a + 273) 1.5 /
        (temperature_boundary_layer T_s T_a + 383.4) ≠ 0 := by
      intro h0
      apply h3
      rw [hv, h0]
    simp only [air_density_eval _ _ h1, hv, reynolds_eval _ _ _ _ hmu]
    exact ⟨_, rfl⟩
  · simp only [air_density_eval _ _ h1, air_viscosity_cplx _ hc h2, reynolds_cplx]
    exact ⟨_, rfl⟩

/-- C4 amended witness at T_s = 5, T_a = 0 (all divisions non-degenerate). -/
theorem convection_total_unless_division_witness :
    (1 + 0.00367 * temperature_boundary_layer 5 0 ≠ 0) ∧
    (temperature_boundary_layer 5 0 + 383.4 ≠ 0) ∧
    (air_viscosity (temperature_boundary_layer 5 0) ≠ .ok (.real 0)) ∧
    ∃ q, convection_heat_loss 5 0 0 0 0 0 = .ok q := by
  have htb : temperature_boundary_layer 5 0 = (2.5 : ℝ) := by
    unfold temperature_boundary_layer; norm_num
  have h1 : 1 + 0.00367 * temperature_boundary_layer 5 0 ≠ 0 := by rw [htb]; norm_num
  have h2 : temperature_boundary_layer 5 0 + 383.4 ≠ 0 := by rw [htb]; norm_num
  have h3 : air_viscosity (temperature_boundary_layer 5 0) ≠ .ok (.real 0) := by
    rw [htb, air_viscosity_eval 2.5 (by norm_num) (by norm_num)]
    intro h
    have hmu : 1.458e-6 * Real.rpow ((2.5 : ℝ) + 273) 1.5 / ((2.5 : ℝ) + 383.4) = 0 := by
      simpa using h
    have hr : 0 < Real.rpow ((2.5 : ℝ) + 273) 1.5 := Real.rpow_pos_of_pos (by norm_num) _
    have : 0 < 1.458e-6 * Real.rpow ((2.5 : ℝ) + 273) 1.5 / ((2.5 : ℝ) + 383.4) :=
      div_pos (mul_pos (by norm_num) hr) (by norm_num)
    linarith
  exact ⟨h1, h2, h3, convection_total_unless_division 5 0 0 0 0 0 h1 h2 h3⟩

/-! ## C9: cold surface (T_s < T_a) and the natural-convection complex power -/

/-- C9 counterexample: an input with T_s strictly below T_a and a positive
(real) air viscosity on which convection_heat_loss does not return 0: the
air-density denominator 1 + 0.00367·T_film is exactly zero, so the function
raises ZeroDivisionError before the complex-comparison handler is reached. -/
theorem convection_cold_surface_cx :
    (-273 : ℝ) < -99809 / 367 ∧
    (∃ m, air_viscosity (temperature_boundary_layer (-273) (-99809 / 367)) = .ok (.real m)
      ∧ 0 < m) ∧
    convection_heat_loss (-273) (-99809 / 367) 0 1 0 1 = .error .zeroDiv := by
  have htb : temperature_boundary_layer (-273) (-99809 / 367) = (-100000 / 367 : ℝ) := by
    unfold temperature_boundary_layer; norm_num
  refine ⟨by norm_num, ?_, ?_⟩
  · rw [htb]
    exact air_viscosity_pos _ (by norm_num) (by norm_num)
  · unfold convection_heat_loss
    simp only [htb, air_density_err 0 ((-100000 : ℝ) / 367) (by norm_num)]

/-- C9 amended: for T_s strictly below T_a, a defined positive (real) air
viscosity, and a non-zero air-density denominator, convection_heat_loss
returns exactly 0: the natural-convection term (T_s - T_a)^1.25 is complex,
and the comparison failure in the final `max` is caught and converted to 0. -/
theorem convection_cold_surface_zero (T_s T_a H_e D_o phi V_w m : ℝ)
    (hcold : T_s < T_a)
    (h1 : 1 + 0.00367 * temperature_boundary_layer T_s T_a ≠ 0)
    (hmu : air_viscosity (temperature_boundary_layer T_s T_a) = .ok (.real m))
    (hmpos : 0 < m) :
    convection_heat_loss T_s T_a H_e D_o phi V_w = .ok 0 := by
  unfold convection_heat_loss
  have hcn : natural_convection_heat_loss
      ((1.293 - 1.525e-4 * H_e + 6.379e-9 * H_e ^ 2) /
        (1 + 0.00367 * temperature_boundary_layer T_s T_a)) D_o T_s T_a = .cplx := by
    unfold natural_convection_heat_loss
    rw [powf_real_neg (T_s - T_a) 1.25 (by linarith) not_isIntR_five_fourths, pyvl_mul_cplx]
  simp only [air_density_eval _ _ h1, hmu, reynolds_eval _ _ _ _ (ne_of_gt hmpos), hcn]
  simp [pyMaxTry]

/-- C9 amended witness at T_s = 0, T_a = 1. -/
theorem convection_cold_surface_zero_witness :
    ((0 : ℝ) < 1) ∧
    (air_viscosity (temperature_boundary_layer 0 1) =
      .ok (.real (1.458e-6 * Real.rpow ((0 + 1) / 2 + 273) 1.5 / ((0 + 1) / 2 + 383.4)))) ∧
    (0 < 1.458e-6 * Real.rpow (((0 : ℝ) + 1) / 2 + 273) 1.5 / (((0 : ℝ) + 1) / 2 + 383.4)) ∧
    (1 + 0.00367 * temperature_boundary_layer 0 1 ≠ 0) ∧
    convection_heat_loss 0 1 0 0 0 0 = .ok 0 := by
  have htb : temperature_boundary_layer 0 1 = ((0 : ℝ) + 1) / 2 := rfl
  have hv : air_viscosity (temperature_boundary_layer 0 1) =
      .ok (.real (1.458e-6 * Real.rpow ((0 + 1) / 2 + 273) 1.5 / ((0 + 1) / 2 + 383.4))) := by
    rw [htb]
    exact air_viscosity_eval _ (by norm_num) (by norm_num)
  have hr : 0 < Real.rpow (((0 : ℝ) + 1) / 2 + 273) 1.5 :=
    Real.rpow_pos_of_pos (by norm_num) _
  have hp : 0 < 1.458e-6 * Real.rpow (((0 : ℝ) + 1) / 2 + 273) 1.5 /
      (((0 : ℝ) + 1) / 2 + 383.4) := div_pos (mul_pos (by norm_num) hr) (by norm_num)
  have h1 : 1 + 0.00367 * temperature_boundary_layer 0 1 ≠ 0 := by
    rw [htb]; norm_num
  exact ⟨by norm_num, hv, hp, h1,
    convection_cold_surface_zero 0 1 0 0 0 0 _ (by norm_num) h1 hv hp⟩

/-! ## Concrete solar-geometry evaluations (midnight, latitude 60, 2021-03-23,
a date on which the embedded solar declination is exactly 0) -/

theorem degrees_eq (x c : ℝ) (h : x * 180 = c * Real.pi) : degrees x = c := by
  rw [degrees, div_eq_iff Real.pi_ne_zero, h]

theorem radians_degrees (y : ℝ) : radians (degrees y) = y := by
  rw [radians, degrees]
  field_simp

theorem ev_decl81 : solar_declination 81 = 0 := by
  unfold solar_declination
  have h : radians ((284 + ((81 : ℕ) : ℝ)) * 360 / 365) = 2 * Real.pi := by
    rw [radians]
    push_cast
    ring
  rw [h, Real.sin_two_pi, mul_zero]

theorem ev_hour0 : hour_angle 0 = (-180 : ℝ) := by
  norm_num [hour_angle]

theorem ev_rad60 : radians 60 = Real.pi / 3 := by rw [radians]; ring

theorem ev_rad0 : radians 0 = 0 := by rw [radians]; ring

theorem ev_rad180n : radians (-180) = -Real.pi := by rw [radians]; ring

theorem ev_rad90 : radians 90 = Real.pi / 2 := by rw [radians]; ring

theorem ev_altitude : altitude_sun 60 0 (-180) = .ok 0 := by
  unfold altitude_sun
  have harg : Real.cos (radians 60) * Real.cos (radians 0) * Real.cos (radians (-180))
      + Real.sin (radians 60) * Real.sin (radians 0) = -(1 / 2) := by
    rw [ev_rad60, ev_rad0, ev_rad180n, Real.cos_zero, Real.sin_zero, Real.cos_neg,
      Real.cos_pi, Real.cos_pi_div_three]
    ring
  have hasin : pyAsin (-(1 / 2)) = .ok (Real.arcsin (-(1 / 2))) := by
    unfold pyAsin
    rw [if_neg (by push_neg; constructor <;> norm_num)]
  have harc : Real.arcsin (-(1 / 2 : ℝ)) = -(Real.pi / 6) := by
    rw [Real.arcsin_neg, ← Real.sin_pi_div_six,
      Real.arcsin_sin (by linarith [Real.pi_pos]) (by linarith [Real.pi_pos])]
  have hdeg : degrees (-(Real.pi / 6)) = -30 := degrees_eq _ _ (by ring)
  simp only [harg, hasin, harc, hdeg]
  rw [if_pos (by norm_num : (-30 : ℝ) < 0)]

theorem ev_azvar : azimuth_variable (-180) 60 0 = .ok 0 := by
  unfold azimuth_variable
  have hnum : Real.sin (radians (-180)) = 0 := by
    rw [ev_rad180n, Real.sin_neg, Real.sin_pi, neg_zero]
  have hden : Real.sin (radians 60) * Real.cos (radians (-180))
      - Real.cos (radians 60) * Real.tan (radians 0) = -(Real.sqrt 3 / 2) := by
    rw [ev_rad60, ev_rad0, ev_rad180n, Real.cos_neg, Real.cos_pi, Real.tan_zero,
      Real.sin_pi_div_three, Real.cos_pi_div_three]
    ring
  have hne : -(Real.sqrt 3 / 2) ≠ 0 := by
    have h3 : 0 < Real.sqrt 3 := Real.sqrt_pos.mpr (by norm_num)
    intro h
    rw [neg_eq_zero] at h
    linarith
  rw [hnum, hden, pyDiv_of_ne _ _ hne, zero_div]

theorem ev_azconst : azimuth_constant (-180) 0 = 0 := by
  unfold azimuth_constant
  rw [if_pos (by norm_num : (-180 : ℝ) ≤ -180 ∧ (-180 : ℝ) < 0 ∧ (0 : ℝ) ≤ 0)]

theorem ev_azim : azimuth 0 0 = 0 := by
  unfold azimuth degrees
  rw [Real.arctan_zero]
  norm_num

theorem incidence_ok (H_c Z_c Z_l : ℝ) :
    solar_rays_incidence_angle H_c Z_c Z_l =
      .ok (degrees (Real.arccos (Real.cos (radians H_c) * Real.cos (radians (Z_c - Z_l))))) := by
  unfold solar_rays_incidence_angle pyAcos
  have h1 : |Real.cos (radians H_c)| ≤ 1 := Real.abs_cos_le_one _
  have h2 : |Real.cos (radians (Z_c - Z_l))| ≤ 1 := Real.abs_cos_le_one _
  have hb : |Real.cos (radians H_c) * Real.cos (radians (Z_c - Z_l))| ≤ 1 := by
    rw [abs_mul]
    exact mul_le_one₀ h1 (abs_nonneg _) h2
  obtain ⟨hlo, hhi⟩ := abs_le.mp hb
  rw [if_neg (by push_neg; exact ⟨by linarith, by linarith⟩)]

theorem ev_incid : solar_rays_incidence_angle 0 0 90 = .ok 90 := by
  rw [incidence_ok]
  have harg : Real.cos (radians 0) * Real.cos (radians (0 - 90)) = 0 := by
    have h90 : radians ((0 : ℝ) - 90) = -(Real.pi / 2) := by rw [radians]; ring
    rw [ev_rad0, h90, Real.cos_zero, Real.cos_neg, Real.cos_pi_div_two]
    ring
  rw [harg, Real.arccos_zero, degrees_eq _ 90 (by ring)]

/-! ## C6: solar gain when the sun is below the horizon -/

/-- C6 counterexample: at midnight (hour 0), latitude 60, date 2021-03-23,
the computed sun altitude is 0 (the raw value -30 is clamped), yet with the
industrial atmosphere class solar_heat_gain returns 53.1821 (the industrial
heat-flux polynomial is positive at zero altitude), not 0. -/
theorem solar_midnight_industrial_positive_cx :
    altitude_sun 60 (solar_declination (day_of_year 2021 3 23)) (hour_angle 0) = .ok 0 ∧
    solar_heat_gain 2021 3 23 0 0 60 true 90 1 1 = .ok 53.1821 ∧
    (53.1821 : ℝ) ≠ 0 := by
  have hN : day_of_year 2021 3 23 = 81 := by decide
  have halt : altitude_sun 60 (solar_declination (day_of_year 2021 3 23)) (hour_angle 0)
      = .ok 0 := by
    rw [hN, ev_decl81, ev_hour0, ev_altitude]
  refine ⟨halt, ?_, by norm_num⟩
  unfold solar_heat_gain
  rw [hN, ev_decl81, ev_hour0] at halt
  simp only [show validDate 2021 3 23 = true from by decide, if_true, hN, ev_decl81,
    ev_hour0, halt, ev_azvar, ev_azconst, ev_azim, ev_incid]
  have hq : (1 : ℝ) * total_heat_flux_intensity (elevation_correction_factor 0)
      (total_heat_flux_density 0 true) * Real.sin (radians 90) * 1 = 53.1821 := by
    rw [ev_rad90, Real.sin_pi_div_two]
    norm_num [total_heat_flux_intensity, elevation_correction_factor, total_heat_flux_density]
  rw [hq, if_neg (by norm_num : ¬ (53.1821 : ℝ) < 0)]

theorem altitude_sun_nonneg (lat d w H : ℝ) (h : altitude_sun lat d w = .ok H) : 0 ≤ H := by
  unfold altitude_sun at h
  rcases hq : pyAsin (Real.cos (radians lat) * Real.cos (radians d) * Real.cos (radians w)
      + Real.sin (radians lat) * Real.sin (radians d)) with e | x
  · rw [hq] at h
    exact Except.noConfusion h
  · rw [hq] at h
    simp only [Except.ok.injEq] at h
    rw [← h]
    split_ifs with hx
    · exact le_refl 0
    · linarith

/-- C6 amended: with the clear atmosphere class (industrial = false),
non-negative absorptivity, diameter and elevation-correction factor, and a
well-defined azimuth variable, solar_heat_gain returns exactly 0 whenever
the computed sun altitude is ≤ 0: the clear-sky flux polynomial is negative
at zero altitude, so the gain is clamped to 0.  (With the industrial class
the gain at zero altitude is positive, refuting the original claim.) -/
theorem solar_clear_sky_zero_when_sun_below (year month day hour : ℕ)
    (H_e lat Z_l D_o alpha H_alt ji : ℝ)
    (hval : validDate year month day = true)
    (halt : altitude_sun lat (solar_declination (day_of_year year month day))
      (hour_angle hour) = .ok H_alt)
    (hneg : H_alt ≤ 0)
    (hji : azimuth_variable (hour_angle hour) lat
      (solar_declination (day_of_year year month day)) = .ok ji)
    (halpha : 0 ≤ alpha) (hD : 0 ≤ D_o)
    (hK : 0 ≤ elevation_correction_factor H_e) :
    solar_heat_gain year month day hour H_e lat false Z_l D_o alpha = .ok 0 := by
  have hzero : H_alt = 0 := le_antisymm hneg (altitude_sun_nonneg _ _ _ _ halt)
  rw [hzero] at halt
  unfold solar_heat_gain
  simp only [hval, if_true, halt, hji, incidence_ok]
  set Z_c := azimuth (azimuth_constant (hour_angle hour) ji) ji with hZc
  set θ := degrees (Real.arccos (Real.cos (radians 0) * Real.cos (radians (Z_c - Z_l))))
    with hθ
  have hs : 0 ≤ Real.sin (radians θ) := by
    rw [hθ, radians_degrees]
    exact Real.sin_nonneg_of_nonneg_of_le_pi (Real.arccos_nonneg _) (Real.arccos_le_pi _)
  have hflux : total_heat_flux_density 0 false = -42.2391 := by
    norm_num [total_heat_flux_density]
  have hq : alpha * total_heat_flux_intensity (elevation_correction_factor H_e)
      (total_heat_flux_density 0 false) * Real.sin (radians θ) * D_o ≤ 0 := by
    rw [total_heat_flux_intensity, hflux]
    nlinarith [mul_nonneg (mul_nonneg (mul_nonneg halpha hK) hs) hD]
  rcases lt_or_eq_of_le hq with h | h
  · rw [if_pos h]
  · rw [h]
    norm_num

/-- C6 amended witness: clear sky at midnight, latitude 60, 2021-03-23,
azimuth 90, diameter 1, absorptivity 1, sea level. -/
theorem solar_clear_sky_zero_when_sun_below_witness :
    validDate 2021 3 23 = true ∧
    altitude_sun 60 (solar_declination (day_of_year 2021 3 23)) (hour_angle 0) = .ok 0 ∧
    ((0 : ℝ) ≤ 0) ∧
    azimuth_variable (hour_angle 0) 60 (solar_declination (day_of_year 2021 3 23)) = .ok 0 ∧
    ((0 : ℝ) ≤ 1) ∧ ((0 : ℝ) ≤ 1) ∧ (0 ≤ elevation_correction_factor 0) ∧
    solar_heat_gain 2021 3 23 0 0 60 false 90 1 1 = .ok 0 := by
  have hN : day_of_year 2021 3 23 = 81 := by decide
  have halt : altitude_sun 60 (solar_declination (day_of_year 2021 3 23)) (hour_angle 0)
      = .ok 0 := by
    rw [hN, ev_decl81, ev_hour0, ev_altitude]
  have hji : azimuth_variable (hour_angle 0) 60 (solar_declination (day_of_year 2021 3 23))
      = .ok 0 := by
    rw [hN, ev_decl81, ev_hour0, ev_azvar]
  exact ⟨by decide, halt, le_refl 0, hji, by norm_num, by norm_num,
    by norm_num [elevation_correction_factor],
    solar_clear_sky_zero_when_sun_below 2021 3 23 0 0 60 90 1 1 0 0 (by decide) halt
      (le_refl 0) hji (by norm_num) (by norm_num)
      (by norm_num [elevation_correction_factor])⟩

/-! ## Convection at the degenerate test environment (T_a = 0, H_e = 0,
D_o = 0, phi = 0, V_w = 0) -/

theorem rpow_zero_base (e : ℝ) (he : e ≠ 0) : Real.rpow 0 e = 0 := Real.zero_rpow he

theorem natural_convection_D0_zero (rho T_s T_a : ℝ) (hrho : 0 ≤ rho)
    (hst : 0 ≤ T_s - T_a) :
    natural_convection_heat_loss rho 0 T_s T_a = .real 0 := by
  unfold natural_convection_heat_loss
  rw [powf_real_of_nonneg _ _ hrho, powf_real_of_nonneg _ _ (le_refl 0),
    powf_real_of_nonneg _ _ hst, pyvl_mul_real, pyvl_mul_real, pyvl_mul_real,
    rpow_zero_base _ (by norm_num : (0.75 : ℝ) ≠ 0)]
  congr 1
  ring

theorem forced_convection_NRe0 (K k_f T_s T_a : ℝ) :
    forced_convection_heat_loss K (.real 0) k_f T_s T_a =
      max (K * 1.01 * k_f * (T_s - T_a)) 0 := by
  unfold forced_convection_heat_loss
  rw [powf_real_of_nonneg _ _ (le_refl 0), powf_real_of_nonneg _ _ (le_refl 0),
    rpow_zero_base _ (by norm_num : (0.52 : ℝ) ≠ 0),
    rpow_zero_base _ (by norm_num : (0.6 : ℝ) ≠ 0)]
  simp only [pyvl_mul_real, pyvl_add_real, pyMaxTry]
  norm_num

theorem ev_wind0 : wind_direction_factor 0 = 0.388 := by
  unfold wind_direction_factor
  simp [radians]
  norm_num

/-- At the degenerate environment (ambient 0, sea level, zero diameter, zero
wind) convection_heat_loss succeeds with a strictly positive value for any
surface temperature in (0, 100]. -/
theorem conv_degenerate_eval (T_s : ℝ) (hpos : 0 < T_s) (hle : T_s ≤ 100) :
    ∃ q, convection_heat_loss T_s 0 0 0 0 0 = .ok q ∧ 0 < q := by
  have htb : temperature_boundary_layer T_s 0 = T_s / 2 := by
    unfold temperature_boundary_layer; ring
  have hden1 : 1 + 0.00367 * (T_s / 2) ≠ 0 := by nlinarith
  have hrho_pos : 0 < (1.293 - 1.525e-4 * 0 + 6.379e-9 * 0 ^ 2) /
      (1 + 0.00367 * (T_s / 2)) := by
    apply div_pos (by norm_num)
    nlinarith
  have hv := air_viscosity_eval (T_s / 2) (by nlinarith) (by nlinarith)
  have hmu_pos : 0 < 1.458e-6 * Real.rpow (T_s / 2 + 273) 1.5 / (T_s / 2 + 383.4) :=
    div_pos (mul_pos (by norm_num) (Real.rpow_pos_of_pos (by nlinarith) _)) (by nlinarith)
  have hcn := natural_convection_D0_zero
    ((1.293 - 1.525e-4 * 0 + 6.379e-9 * 0 ^ 2) / (1 + 0.00367 * (T_s / 2))) T_s 0
    (le_of_lt hrho_pos) (by linarith)
  have hkf : 0 < air_thermal_conductivity_coefficient (T_s / 2) := by
    unfold air_thermal_conductivity_coefficient
    nlinarith
  unfold convection_heat_loss
  simp only [htb, air_density_eval _ _ hden1, hv, reynolds_eval _ _ _ _ (ne_of_gt hmu_pos)]
  rw [show (0 : ℝ) * ((1.293 - 1.525e-4 * 0 + 6.379e-9 * 0 ^ 2) / (1 + 0.00367 * (T_s / 2)))
      * 0 / (1.458e-6 * Real.rpow (T_s / 2 + 273) 1.5 / (T_s / 2 + 383.4)) = 0 from by ring]
  rw [forced_convection_NRe0, hcn, ev_wind0]
  simp only [pyMaxTry]
  refine ⟨_, rfl, ?_⟩
  have h1 : 0 < 0.388 * 1.01 * air_thermal_conductivity_coefficient (T_s / 2) * (T_s - 0) := by
    have := mul_pos (mul_pos (by norm_num : (0 : ℝ) < 0.388 * 1.01) hkf)
      (by linarith : (0 : ℝ) < T_s - 0)
    linarith [this]
  exact lt_max_iff.mpr (Or.inl (lt_max_iff.mpr (Or.inl h1)))

/-! ## C5: the settling-time loop when T_final < T_initial -/

/-- C5 counterexample: with the post-transient temperature T_f = 5 strictly
below the initial temperature T = 10, the settling loop does NOT loop
indefinitely: the condition `T <= T_f` is false on entry, the body never
runs, and the loop returns the accumulated time 0 at once — for every fuel
bound, including fuel 0. -/
theorem settling_loop_immediate_cx :
    (5 : ℝ) < 10 ∧
    settlingLoopFuel 0 0 0 0 0 0 0 0 0 0 1 0 1 5 1 10 0 = some (.ok 0) ∧
    ∀ fuel : ℕ, settlingLoopFuel 0 0 0 0 0 0 0 0 0 0 1 0 1 5 fuel 10 0 = some (.ok 0) := by
  have h : ∀ fuel : ℕ, settlingLoopFuel 0 0 0 0 0 0 0 0 0 0 1 0 1 5 fuel 10 0
      = some (.ok 0) := by
    intro fuel
    rw [settlingLoopFuel.eq_def]; simp only []
    rw [if_neg (by norm_num : ¬ (10 : ℝ) ≤ 5)]
  exact ⟨by norm_num, h 1, h⟩

/-- C5 amended: when T_final < T_initial the settling loop exits immediately
without executing its body and returns the accumulated time unchanged (so
transient_settling_time returns 0, a degenerate value, rather than looping
forever).  The unguarded loop can instead run indefinitely in another
regime: with temperature step dT = 0 and T_initial ≤ T_final (shown here at
a concrete environment) the loop never terminates for any fuel bound. -/
theorem settling_loop_cooling_amended (I_f V_w phi epsilon T_a D_o R_0 T_0 alpha_T H_e
    mC_p q_s dT T_f : ℝ) (fuel : ℕ) (T Time : ℝ) (h : T_f < T) :
    settlingLoopFuel I_f V_w phi epsilon T_a D_o R_0 T_0 alpha_T H_e mC_p q_s dT T_f
      fuel T Time = some (.ok Time) ∧
    ∀ (fuel2 : ℕ) (Time2 : ℝ),
      settlingLoopFuel 0 0 0 0 0 0 0 0 0 0 1 0 0 5 fuel2 5 Time2 = none := by
  constructor
  · rw [settlingLoopFuel.eq_def]; simp only []
    rw [if_neg (not_le.mpr h)]
  · have hbody : ∃ d, settlingBody 0 0 0 0 0 0 0 0 0 0 1 0 0 5 = .ok d := by
      obtain ⟨q, hq, hqpos⟩ := conv_degenerate_eval 5 (by norm_num) (by norm_num)
      unfold settlingBody
      simp only [hq]
      unfold delta_t
      have hX : conductor_electrical_resistance 0 0 0 5 * (0 : ℝ) ^ 2 + 0 - q
          - radiated_heat_loss 0 0 5 0 ≠ 0 := by
        unfold conductor_electrical_resistance radiated_heat_loss
        intro hc
        nlinarith
      simp only [pyDiv_of_ne _ _ hX]
      exact ⟨_, rfl⟩
    obtain ⟨d, hd⟩ := hbody
    intro fuel2
    induction fuel2 with
    | zero =>
      intro Time2
      rw [settlingLoopFuel.eq_def]; simp only []
      rw [if_pos (by norm_num : (5 : ℝ) ≤ 5)]
    | succ n ih =>
      intro Time2
      rw [settlingLoopFuel.eq_def]; simp only []
      rw [if_pos (by norm_num : (5 : ℝ) ≤ 5)]
      simp only [hd]
      rw [show (5 : ℝ) + 0 = 5 from by norm_num]
      exact ih (Time2 + d)

/-- C5 amended witness: T_f = 5 < T = 10 with fuel 1. -/
theorem settling_loop_cooling_amended_witness :
    (5 : ℝ) < 10 ∧
    (settlingLoopFuel 0 0 0 0 0 0 0 0 0 0 1 0 1 5 1 10 0 = some (.ok 0) ∧
     ∀ (fuel2 : ℕ) (Time2 : ℝ),
       settlingLoopFuel 0 0 0 0 0 0 0 0 0 0 1 0 0 5 fuel2 5 Time2 = none) :=
  ⟨by norm_num,
   settling_loop_cooling_amended 0 0 0 0 0 0 0 0 0 0 1 0 1 5 1 10 0 (by norm_num)⟩

/-! ## Concrete run of the secant solver (degenerate environment: target
current 0, zero resistance and diameter, tolerance 100, cap 1) -/

theorem rating_zero_R (q_c q_r q_s : ℝ) : steady_state_thermal_rating q_c q_r q_s 0 = 0 := by
  unfold steady_state_thermal_rating
  rw [pyDiv_den_zero]

theorem ssPass_eval5 : ssPass 0 0 0 0 0 0 0 0 0 0 0 5 = .ok 5 := by
  obtain ⟨q1, hq1, _⟩ := conv_degenerate_eval 5 (by norm_num) (by norm_num)
  obtain ⟨q2, hq2, _⟩ := conv_degenerate_eval (5 * (1 + 0.1)) (by norm_num) (by norm_num)
  unfold ssPass
  simp only [hq1, hq2]
  have hR : conductor_electrical_resistance 0 0 0 5 = 0 := by
    unfold conductor_electrical_resistance; ring
  have hR2 : conductor_electrical_resistance 0 0 0 (5 * (1 + 0.1)) = 0 := by
    unfold conductor_electrical_resistance; ring
  rw [hR, hR2, rating_zero_R, rating_zero_R]
  norm_num

theorem ssLoop_eval : ssLoopAux 0 0 0 0 0 0 0 0 0 0 0 100 1 5 100 0 = .ok (5, 1) := by
  rw [ssLoopAux.eq_def]
  simp only [ssPass_eval5]
  rw [dif_pos (Or.inr (by norm_num : (1 : ℕ) ≤ 0 + 1))]

theorem h_solar_solverenv : solar_heat_gain 2021 3 23 0 0 60 false 90 0 1 = .ok 0 := by
  have hN : day_of_year 2021 3 23 = 81 := by decide
  have halt : altitude_sun 60 0 (-180) = .ok 0 := ev_altitude
  unfold solar_heat_gain
  simp only [show validDate 2021 3 23 = true from by decide, if_true, hN, ev_decl81,
    ev_hour0, halt, ev_azvar, ev_azconst, ev_azim, ev_incid]
  have hq : (1 : ℝ) * total_heat_flux_intensity (elevation_correction_factor 0)
      (total_heat_flux_density 0 false) * Real.sin (radians 90) * 0 = 0 := by ring
  rw [hq, if_neg (lt_irrefl 0)]

theorem solver_eval :
    steady_state_conductor_temperature 0 0 0 0 1 0 0 0 0 0 90 60 false 2021 3 23 0 0 100 1
      = .ok 5 := by
  unfold steady_state_conductor_temperature
  simp only [h_solar_solverenv, show (0 : ℝ) + 5 = 5 from by norm_num, ssLoop_eval]

/-! ## C2: termination and iteration-count characterisation of the solver -/

theorem ssLoopAux_spec (I_ss V_w phi epsilon T_a D_o R_0 T_0 alpha_T H_e q_s es : ℝ)
    (imax : ℕ) :
    ∀ (fuel i : ℕ) (T ea : ℝ), imax - i ≤ fuel →
      ∀ Tf i_f,
        ssLoopAux I_ss V_w phi epsilon T_a D_o R_0 T_0 alpha_T H_e q_s es imax T ea i
          = .ok (Tf, i_f) →
        i < i_f ∧ (i_f ≤ imax ∨ i_f = i + 1) ∧
        (∃ ea_f,
          ssIter I_ss V_w phi epsilon T_a D_o R_0 T_0 alpha_T H_e q_s (i_f - i) (T, ea)
            = .ok (Tf, ea_f) ∧ (ea_f ≤ es ∨ imax ≤ i_f)) ∧
        ∀ m, i < m → m < i_f →
          ∃ s : ℝ × ℝ,
            ssIter I_ss V_w phi epsilon T_a D_o R_0 T_0 alpha_T H_e q_s (m - i) (T, ea)
              = .ok s ∧ ¬ s.2 ≤ es ∧ m < imax := by
  intro fuel
  induction fuel with
  | zero =>
    intro i T ea hfuel Tf i_f hrun
    rw [ssLoopAux.eq_def] at hrun
    rcases hp : ssPass I_ss V_w phi epsilon T_a D_o R_0 T_0 alpha_T H_e q_s T with e | T2
    · rw [hp] at hrun
      exact absurd hrun (by simp)
    · rw [hp] at hrun
      simp only [] at hrun
      rw [dif_pos (Or.inr (by omega : imax ≤ i + 1))] at hrun
      simp only [Except.ok.injEq, Prod.mk.injEq] at hrun
      obtain ⟨hT, hi⟩ := hrun
      refine ⟨by omega, Or.inr hi.symm, ⟨ssNewErr T2 T ea, ?_, Or.inr (by omega)⟩, ?_⟩
      · rw [show i_f - i = 1 by omega]
        simp [ssIter, hp, hT]
      · intro m hm1 hm2
        omega
  | succ n ih =>
    intro i T ea hfuel Tf i_f hrun
    rw [ssLoopAux.eq_def] at hrun
    rcases hp : ssPass I_ss V_w phi epsilon T_a D_o R_0 T_0 alpha_T H_e q_s T with e | T2
    · rw [hp] at hrun
      exact absurd hrun (by simp)
    · rw [hp] at hrun
      simp only [] at hrun
      by_cases hc : ssNewErr T2 T ea ≤ es ∨ imax ≤ i + 1
      · rw [dif_pos hc] at hrun
        simp only [Except.ok.injEq, Prod.mk.injEq] at hrun
        obtain ⟨hT, hi⟩ := hrun
        refine ⟨by omega, Or.inr hi.symm, ⟨ssNewErr T2 T ea, ?_, ?_⟩, ?_⟩
        · rw [show i_f - i = 1 by omega]
          simp [ssIter, hp, hT]
        · rcases hc with hc | hc
          · exact Or.inl hc
          · exact Or.inr (by omega)
        · intro m hm1 hm2
          omega
      · rw [dif_neg hc] at hrun
        push_neg at hc
        obtain ⟨hc1, hc2⟩ := hc
        obtain ⟨ha, hb, ⟨ea_f, hiter, hexit⟩, hmin⟩ :=
          ih (i + 1) T2 (ssNewErr T2 T ea) (by omega) Tf i_f hrun
        refine ⟨by omega, ?_, ⟨ea_f, ?_, hexit⟩, ?_⟩
        · rcases hb with hb | hb
          · exact Or.inl hb
          · exact Or.inl (by omega)
        · rw [show i_f - i = (i_f - (i + 1)) + 1 by omega]
          simp only [ssIter, hp]
          exact hiter
        · intro m hm1 hm2
          by_cases hm : m = i + 1
          · refine ⟨(T2, ssNewErr T2 T ea), ?_, not_le.mpr hc1, by omega⟩
            rw [hm, show i + 1 - i = 1 by omega]
            simp [ssIter, hp]
          · obtain ⟨s, hs, hs2, hs3⟩ := hmin m (by omega) hm2
            refine ⟨s, ?_, hs2, hs3⟩
            rw [show m - i = (m - (i + 1)) + 1 by omega]
            simp only [ssIter, hp]
            exact hs

/-- C2: for every tolerance and every iteration cap imax ≥ 1, a successful
run of steady_state_conductor_temperature is produced by the loop in at
least 1 and at most imax full iterations of the body; the run stops at the
first iteration whose relative change is within tolerance (or at imax), and
returns the trial temperature of that final iteration (the iteration states
being those of the reference iteration ssIter seeded at T_a + 5 with
initial error 100).  Termination itself is by construction: the embedded
loop recurses on imax - i, which the exit test i ≥ imax makes well-founded. -/
theorem secant_solver_termination (I_ss V_w phi epsilon alpha T_a D_o R_0 T_0 alpha_T
    Z_l lat : ℝ) (industrial_atmosphere : Bool) (year month day hour : ℕ)
    (H_e es : ℝ) (imax : ℕ) (himax : 1 ≤ imax) (T : ℝ)
    (hrun : steady_state_conductor_temperature I_ss V_w phi epsilon alpha T_a D_o R_0 T_0
      alpha_T Z_l lat industrial_atmosphere year month day hour H_e es imax = .ok T) :
    ∃ q_s i_f ea_f,
      solar_heat_gain year month day hour H_e lat industrial_atmosphere Z_l D_o alpha
        = .ok q_s ∧
      ssLoopAux I_ss V_w phi epsilon T_a D_o R_0 T_0 alpha_T H_e q_s es imax
        (T_a + 5) 100 0 = .ok (T, i_f) ∧
      1 ≤ i_f ∧ i_f ≤ imax ∧
      ssIter I_ss V_w phi epsilon T_a D_o R_0 T_0 alpha_T H_e q_s i_f (T_a + 5, 100)
        = .ok (T, ea_f) ∧
      (ea_f ≤ es ∨ imax ≤ i_f) ∧
      ∀ m, 1 ≤ m → m < i_f →
        ∃ s : ℝ × ℝ,
          ssIter I_ss V_w phi epsilon T_a D_o R_0 T_0 alpha_T H_e q_s m (T_a + 5, 100)
            = .ok s ∧ ¬ s.2 ≤ es ∧ m < imax := by
  unfold steady_state_conductor_temperature at hrun
  rcases hq : solar_heat_gain year month day hour H_e lat industrial_atmosphere Z_l D_o alpha
    with e | q_s
  · rw [hq] at hrun
    exact absurd hrun (by simp)
  · rw [hq] at hrun
    simp only [] at hrun
    rcases hl : ssLoopAux I_ss V_w phi epsilon T_a D_o R_0 T_0 alpha_T H_e q_s es imax
        (T_a + 5) 100 0 with e | r
    · rw [hl] at hrun
      exact absurd hrun (by simp)
    · rw [hl] at hrun
      simp only [Except.ok.injEq] at hrun
      obtain ⟨Tf, i_f⟩ := r
      simp only [] at hrun
      rw [hrun] at hl
      obtain ⟨h1, h2, ⟨ea_f, hiter, hexit⟩, hmin⟩ :=
        ssLoopAux_spec I_ss V_w phi epsilon T_a D_o R_0 T_0 alpha_T H_e q_s es imax
          (imax - 0) 0 (T_a + 5) 100 (le_refl _) T i_f hl
      rw [Nat.sub_zero] at hiter
      have hle : i_f ≤ imax := by
        rcases h2 with h2 | h2
        · exact h2
        · omega
      refine ⟨q_s, i_f, ea_f, rfl, hl, by omega, hle, hiter, hexit, ?_⟩
      intro m hm1 hm2
      obtain ⟨s, hs, hs2, hs3⟩ := hmin m (by omega) hm2
      rw [Nat.sub_zero] at hs
      exact ⟨s, hs, hs2, hs3⟩

/-- C2 witness: the degenerate environment with cap imax = 1 converges in
one iteration to temperature 5. -/
theorem secant_solver_termination_witness :
    1 ≤ 1 ∧
    steady_state_conductor_temperature 0 0 0 0 1 0 0 0 0 0 90 60 false 2021 3 23 0 0 100 1
      = .ok 5 ∧
    (∃ q_s i_f ea_f,
      solar_heat_gain 2021 3 23 0 0 60 false 90 0 1 = .ok q_s ∧
      ssLoopAux 0 0 0 0 0 0 0 0 0 0 q_s 100 1 ((0 : ℝ) + 5) 100 0 = .ok (5, i_f) ∧
      1 ≤ i_f ∧ i_f ≤ 1 ∧
      ssIter 0 0 0 0 0 0 0 0 0 0 q_s i_f ((0 : ℝ) + 5, 100) = .ok (5, ea_f) ∧
      (ea_f ≤ 100 ∨ 1 ≤ i_f) ∧
      ∀ m, 1 ≤ m → m < i_f →
        ∃ s : ℝ × ℝ, ssIter 0 0 0 0 0 0 0 0 0 0 q_s m ((0 : ℝ) + 5, 100) = .ok s ∧
          ¬ s.2 ≤ 100 ∧ m < 1) :=
  ⟨le_refl 1, solver_eval,
    secant_solver_termination 0 0 0 0 1 0 0 0 0 0 90 60 false 2021 3 23 0 0 100 1
      (le_refl 1) 5 solver_eval⟩

/-! ## C7: shape of the transient temperature trajectory -/

theorem transientBody_decomp (I_f V_w phi epsilon T_a D_o R_0 T_0 alpha_T H_e mC_p q_s dt
    T d : ℝ)
    (h : transientBody I_f V_w phi epsilon T_a D_o R_0 T_0 alpha_T H_e mC_p q_s dt T
      = .ok d) :
    ∃ q_c, convection_heat_loss T T_a H_e D_o phi V_w = .ok q_c ∧ mC_p ≠ 0 ∧
      d = (conductor_electrical_resistance R_0 T_0 alpha_T T * I_f ^ 2 + q_s - q_c
        - radiated_heat_loss D_o epsilon T T_a) / mC_p * dt := by
  unfold transientBody at h
  rcases hc : convection_heat_loss T T_a H_e D_o phi V_w with e | q_c
  · rw [hc] at h
    exact absurd h (by simp)
  · rw [hc] at h
    simp only [] at h
    unfold delta_T at h
    by_cases hm : mC_p = 0
    · rw [hm, pyDiv_den_zero] at h
      exact absurd h (by simp)
    · rw [pyDiv_of_ne _ _ hm] at h
      simp only [Except.ok.injEq] at h
      exact ⟨q_c, rfl, hm, h.symm⟩

theorem eulerGo_chain (I_f V_w phi epsilon T_a D_o R_0 T_0 alpha_T H_e mC_p q_s dt : ℝ) :
    ∀ (n : ℕ) (T : ℝ) (acc : List ℝ),
      eulerGo I_f V_w phi epsilon T_a D_o R_0 T_0 alpha_T H_e mC_p q_s dt n T acc =
        match eulerChain I_f V_w phi epsilon T_a D_o R_0 T_0 alpha_T H_e mC_p q_s dt n T with
        | .error e => .error e
        | .ok l => .ok (acc ++ l) := by
  intro n
  induction n with
  | zero =>
    intro T acc
    simp [eulerGo, eulerChain]
  | succ k ih =>
    intro T acc
    rcases hb : transientBody I_f V_w phi epsilon T_a D_o R_0 T_0 alpha_T H_e mC_p q_s dt T
      with e | d
    · simp [eulerGo, eulerChain, hb]
    · simp only [eulerGo, eulerChain, hb]
      rw [ih]
      rcases hc : eulerChain I_f V_w phi epsilon T_a D_o R_0 T_0 alpha_T H_e mC_p q_s dt k
          (T + d) with e | l
      · simp
      · simp

theorem eulerChain_length (I_f V_w phi epsilon T_a D_o R_0 T_0 alpha_T H_e mC_p q_s dt : ℝ) :
    ∀ (n : ℕ) (T : ℝ) (l : List ℝ),
      eulerChain I_f V_w phi epsilon T_a D_o R_0 T_0 alpha_T H_e mC_p q_s dt n T = .ok l →
      l.length = n := by
  intro n
  induction n with
  | zero =>
    intro T l h
    simp only [eulerChain, Except.ok.injEq] at h
    rw [← h]
    rfl
  | succ k ih =>
    intro T l h
    rcases hb : transientBody I_f V_w phi epsilon T_a D_o R_0 T_0 alpha_T H_e mC_p q_s dt T
      with e | d
    · rw [eulerChain, hb] at h
      exact absurd h (by simp)
    · rw [eulerChain, hb] at h
      simp only [] at h
      rcases hc : eulerChain I_f V_w phi epsilon T_a D_o R_0 T_0 alpha_T H_e mC_p q_s dt k
          (T + d) with e | rest
      · rw [hc] at h
        exact absurd h (by simp)
      · rw [hc] at h
        simp only [Except.ok.injEq] at h
        rw [← h]
        simp [ih (T + d) rest hc]

theorem eulerChain_rec (I_f V_w phi epsilon T_a D_o R_0 T_0 alpha_T H_e mC_p q_s dt : ℝ) :
    ∀ (n : ℕ) (T : ℝ) (l : List ℝ),
      eulerChain I_f V_w phi epsilon T_a D_o R_0 T_0 alpha_T H_e mC_p q_s dt n T = .ok l →
      ∀ k, k + 1 < (T :: l).length →
        ∃ q_c, convection_heat_loss ((T :: l).getD k 0) T_a H_e D_o phi V_w = .ok q_c ∧
          mC_p ≠ 0 ∧
          (T :: l).getD (k + 1) 0 = (T :: l).getD k 0 +
            (conductor_electrical_resistance R_0 T_0 alpha_T ((T :: l).getD k 0) * I_f ^ 2
              + q_s - q_c
              - radiated_heat_loss D_o epsilon ((T :: l).getD k 0) T_a) / mC_p * dt := by
  intro n
  induction n with
  | zero =>
    intro T l h k hk
    simp only [eulerChain, Except.ok.injEq] at h
    rw [← h] at hk
    simp at hk
  | succ m ih =>
    intro T l h k hk
    rcases hb : transientBody I_f V_w phi epsilon T_a D_o R_0 T_0 alpha_T H_e mC_p q_s dt T
      with e | d
    · rw [eulerChain, hb] at h
      exact absurd h (by simp)
    · rw [eulerChain, hb] at h
      simp only [] at h
      rcases hc : eulerChain I_f V_w phi epsilon T_a D_o R_0 T_0 alpha_T H_e mC_p q_s dt m
          (T + d) with e | rest
      · rw [hc] at h
        exact absurd h (by simp)
      · rw [hc] at h
        simp only [Except.ok.injEq] at h
        subst h
        match k with
        | 0 =>
          obtain ⟨q_c, hqc, hm0, hd⟩ := transientBody_decomp _ _ _ _ _ _ _ _ _ _ _ _ _ _ _ hb
          refine ⟨q_c, ?_, hm0, ?_⟩
          · simpa using hqc
          · simp only [List.getD]
            simp [hd]
        | Nat.succ j =>
          have hk2 : j + 1 < ((T + d) :: rest).length := by
            simpa using hk
          obtain ⟨q_c, hqc, hm0, hstep⟩ := ih (T + d) rest hc j hk2
          exact ⟨q_c, by simpa using hqc, hm0, by simpa using hstep⟩

/-- C7: for a positive step dt and a non-negative horizon, a successful run
of transient_conductor_temperature returns a list of exactly
floor(time/dt) + 1 temperatures; its element 0 is the pre-transient steady
state computed for I_i, and element k+1 is element k plus the forward-Euler
increment (R(T_k)·I_f² + q_solar − q_convective(T_k) − q_radiative(T_k)) /
mC_p · dt, with the solar gain q_s computed once for all steps. -/
theorem transient_trajectory_shape (I_i I_f dt time mC_p V_w phi epsilon alpha T_a D_o
    R_0 T_0 alpha_T Z_l lat : ℝ) (industrial_atmosphere : Bool)
    (year month day hour : ℕ) (H_e es : ℝ) (imax : ℕ)
    (hdt : 0 < dt) (htime : 0 ≤ time) (L : List ℝ)
    (hL : transient_conductor_temperature I_i I_f dt time mC_p V_w phi epsilon alpha T_a D_o
      R_0 T_0 alpha_T Z_l lat industrial_atmosphere year month day hour H_e es imax
      = .ok L) :
    L.length = (⌊time / dt⌋).toNat + 1 ∧
    ∃ T_i q_s,
      steady_state_conductor_temperature I_i V_w phi epsilon alpha T_a D_o R_0 T_0 alpha_T
        Z_l lat industrial_atmosphere year month day hour H_e es imax = .ok T_i ∧
      solar_heat_gain year month day hour H_e lat industrial_atmosphere Z_l D_o alpha
        = .ok q_s ∧
      L.getD 0 0 = T_i ∧
      ∀ k, k + 1 < L.length →
        ∃ q_c, convection_heat_loss (L.getD k 0) T_a H_e D_o phi V_w = .ok q_c ∧
          mC_p ≠ 0 ∧
          L.getD (k + 1) 0 = L.getD k 0 +
            (conductor_electrical_resistance R_0 T_0 alpha_T (L.getD k 0) * I_f ^ 2
              + q_s - q_c
              - radiated_heat_loss D_o epsilon (L.getD k 0) T_a) / mC_p * dt := by
  unfold transient_conductor_temperature at hL
  rcases hs : steady_state_conductor_temperature I_i V_w phi epsilon alpha T_a D_o R_0 T_0
      alpha_T Z_l lat industrial_atmosphere year month day hour H_e es imax with e | T_i
  · rw [hs] at hL
    exact absurd hL (by simp)
  rw [hs] at hL
  simp only [] at hL
  rcases hg : solar_heat_gain year month day hour H_e lat industrial_atmosphere Z_l D_o alpha
    with e | q_s
  · rw [hg] at hL
    exact absurd hL (by simp)
  rw [hg] at hL
  simp only [] at hL
  rw [pyDiv_of_ne _ _ (ne_of_gt hdt)] at hL
  simp only [] at hL
  have htr : pyTrunc (time / dt) = ⌊time / dt⌋ := by
    unfold pyTrunc
    rw [if_pos (div_nonneg htime (le_of_lt hdt))]
  rw [htr] at hL
  rw [eulerGo_chain] at hL
  rcases hc : eulerChain I_f V_w phi epsilon T_a D_o R_0 T_0 alpha_T H_e mC_p q_s dt
      (⌊time / dt⌋).toNat T_i with e | l
  · rw [hc] at hL
    exact absurd hL (by simp)
  rw [hc] at hL
  simp only [List.singleton_append, Except.ok.injEq] at hL
  subst hL
  refine ⟨?_, T_i, q_s, rfl, rfl, rfl, ?_⟩
  · simp [eulerChain_length _ _ _ _ _ _ _ _ _ _ _ _ _ _ _ _ hc]
  · exact eulerChain_rec _ _ _ _ _ _ _ _ _ _ _ _ _ _ _ _ hc

theorem transient_eval :
    transient_conductor_temperature 0 0 1 0 1 0 0 0 1 0 0 0 0 0 90 60 false 2021 3 23 0 0
      100 1 = .ok [5] := by
  unfold transient_conductor_temperature
  simp only [solver_eval, h_solar_solverenv, pyDiv_of_ne (0 : ℝ) 1 (by norm_num)]
  rw [show (0 : ℝ) / 1 = 0 from by norm_num]
  rw [show pyTrunc 0 = 0 from by unfold pyTrunc; simp]
  rfl

/-- C7 witness: a zero-length horizon at the degenerate environment yields
the singleton trajectory [5]. -/
theorem transient_trajectory_shape_witness :
    (0 : ℝ) < 1 ∧ (0 : ℝ) ≤ 0 ∧
    transient_conductor_temperature 0 0 1 0 1 0 0 0 1 0 0 0 0 0 90 60 false 2021 3 23 0 0
      100 1 = .ok [5] ∧
    (([5] : List ℝ).length = (⌊(0 : ℝ) / 1⌋).toNat + 1 ∧
     ∃ T_i q_s,
       steady_state_conductor_temperature 0 0 0 0 1 0 0 0 0 0 90 60 false 2021 3 23 0 0
         100 1 = .ok T_i ∧
       solar_heat_gain 2021 3 23 0 0 60 false 90 0 1 = .ok q_s ∧
       ([5] : List ℝ).getD 0 0 = T_i ∧
       ∀ k, k + 1 < ([5] : List ℝ).length →
         ∃ q_c, convection_heat_loss (([5] : List ℝ).getD k 0) 0 0 0 0 0 = .ok q_c ∧
           (1 : ℝ) ≠ 0 ∧
           ([5] : List ℝ).getD (k + 1) 0 = ([5] : List ℝ).getD k 0 +
             (conductor_electrical_resistance 0 0 0 (([5] : List ℝ).getD k 0) * (0 : ℝ) ^ 2
               + q_s - q_c
               - radiated_heat_loss 0 0 (([5] : List ℝ).getD k 0) 0) / 1 * 1) :=
  ⟨by norm_num, le_refl 0, transient_eval,
    transient_trajectory_shape 0 0 1 0 1 0 0 0 1 0 0 0 0 0 90 60 false 2021 3 23 0 0 100 1
      (by norm_num) (le_refl 0) [5] transient_eval⟩

end IEEE738
